import Mathlib

/-!
Verification development for the HealthAIweb repository.

The repository's client consists of the pages `Upload.tsx`, `Results.tsx`,
`Models.tsx` and the helper `config/api.ts`.  The definitions below are a
shallow embedding of those sources: strings are modelled as `List Char`
(so that the JavaScript index arithmetic of `lastIndexOf`/`substring` is
explicit), JSON objects as Lean structures with `Option` fields for fields
that may be absent, and the React state updates as pure functions from the
old state (plus the event's data) to the new state.

The parameter validator of the orchestration core is not part of the
checked-in sources; it is modelled from the specification where noted.
-/

/-- ASCII lowercase conversion, mirroring the behaviour of JavaScript's
`String.prototype.toLowerCase` on the characters that matter to the file
name comparisons in `Upload.handleFileChange` (the comparison targets
`.csv` / `.h5ad` are ASCII). -/
def charToLower (c : Char) : Char :=
  match c with
  | 'A' => 'a' | 'B' => 'b' | 'C' => 'c' | 'D' => 'd' | 'E' => 'e' | 'F' => 'f'
  | 'G' => 'g' | 'H' => 'h' | 'I' => 'i' | 'J' => 'j' | 'K' => 'k' | 'L' => 'l'
  | 'M' => 'm' | 'N' => 'n' | 'O' => 'o' | 'P' => 'p' | 'Q' => 'q' | 'R' => 'r'
  | 'S' => 's' | 'T' => 't' | 'U' => 'u' | 'V' => 'v' | 'W' => 'w' | 'X' => 'x'
  | 'Y' => 'y' | 'Z' => 'z'
  | other => other

/-- Index of the last occurrence of `'.'` in a character list, as
JavaScript's `name.lastIndexOf('.')` (with `none` standing for `-1`). -/
def lastDotIdx : List Char → Option Nat
  | [] => none
  | c :: cs =>
    match lastDotIdx cs with
    | some i => some (i + 1)
    | none => if c = '.' then some 0 else none

/-- `Upload.tsx` line 33: the computed extension
`file.name.toLowerCase().substring(file.name.lastIndexOf('.'))`.
JavaScript's `substring` clamps the argument `-1` (no dot found) to `0`,
so in that case the whole lowercased name is returned. -/
def fileExtension (name : List Char) : List Char :=
  match lastDotIdx name with
  | none => name.map charToLower
  | some i => (name.map charToLower).drop i

/-- `Upload.tsx` line 32: `const allowedTypes = ['.csv', '.h5ad']`. -/
def allowedTypes : List (List Char) := [".csv".data, ".h5ad".data]

/-- The format check of `Upload.handleFileChange`:
`allowedTypes.includes(fileExtension)`. -/
def extensionAllowed (name : List Char) : Bool :=
  allowedTypes.contains (fileExtension name)

/-- The slice of a browser `File` object that `Upload.tsx` reads. -/
structure FileMeta where
  name : List Char
  size : Nat
deriving DecidableEq, Repr

/-- The component state of the `Upload` page: `selectedFile`, `parameters`,
`uploading`, `error` (React `useState` hooks), together with the two
observable effects of its handlers — the route passed to `navigate` and the
list of URLs passed to `fetch`. -/
structure UploadState where
  selectedFile : Option FileMeta
  parameters : List (String × Int)
  uploading : Bool
  error : Option String
  navigatedTo : Option String
  requests : List String
deriving DecidableEq, Repr

/-- The initial `useState` values of `Upload.tsx` (lines 6-13); no request
has been issued and no navigation has happened. -/
def initialUploadState : UploadState :=
  { selectedFile := none
    parameters := [("n_latent", 10), ("n_epochs", 50)]
    uploading := false
    error := none
    navigatedTo := none
    requests := [] }

/-- `Upload.handleFileChange` (lines 28-45): if no file accompanies the
event nothing happens; otherwise a file whose extension is not in
`allowedTypes` sets the unsupported-format error and clears the selection,
and an accepted file becomes selected with the error cleared.  The handler
performs no `fetch` and no navigation, so those fields are untouched. -/
def handleFileChange (files : Option FileMeta) (s : UploadState) : UploadState :=
  match files with
  | none => s
  | some file =>
    if extensionAllowed file.name = false then
      { s with
        error := some "Unsupported file format. Please select a .csv or .h5ad file."
        selectedFile := none }
    else
      { s with selectedFile := some file, error := none }

/-- The JavaScript object update `\x7b...prev, [name]: value\x7d` read as a
key-value map: an existing key keeps its position and receives the new
value, a fresh key is appended. -/
def setParam : List (String × Int) → String → Int → List (String × Int)
  | [], n, v => [(n, v)]
  | (k, w) :: rest, n, v =>
    if k = n then (k, v) :: rest else (k, w) :: setParam rest n v

/-- JavaScript property lookup on the parameter object. -/
def lookupParam : List (String × Int) → String → Option Int
  | [], _ => none
  | (k, w) :: rest, n => if k = n then some w else lookupParam rest n

/-- `Upload.handleParameterChange` (lines 48-53): replaces the `parameters`
state by the spread update; every other piece of state is untouched. -/
def handleParameterChange (name : String) (value : Int) (s : UploadState) :
    UploadState :=
  { s with parameters := setParam s.parameters name value }

/-- The backend's reply to `POST /predict/...` as `Upload.handleSubmit`
reads it: the HTTP `ok` flag and the optional `task_id` field of the JSON
body. -/
structure PredictResponse where
  ok : Bool
  task_id : Option String
deriving DecidableEq, Repr

/-- JavaScript truthiness of `result.task_id`: an absent field and the
empty string are falsy, any other string is truthy. -/
def jsTruthyOptStr : Option String → Bool
  | none => false
  | some s => !(s == "")

/-- `Upload.handleSubmit` (lines 56-101).  With no selected file it only
sets an error.  Otherwise it issues `POST /predict/[selectedModel]` and,
from the response: not-ok throws `Upload failed.`; ok with a truthy
`task_id` navigates to `/results/[task_id]`; ok without one throws
`Did not receive task ID.`.  Every thrown error lands in `setError` via the
catch block, and the `finally` block resets `uploading` to `false`. -/
def handleSubmit (selectedModel : String) (resp : PredictResponse)
    (s : UploadState) : UploadState :=
  match s.selectedFile with
  | none => { s with error := some "Please select a file." }
  | some _ =>
    let s1 := { s with
      uploading := false
      error := none
      requests := s.requests ++ ["/predict/" ++ selectedModel] }
    if resp.ok = false then
      { s1 with error := some "Upload failed." }
    else if jsTruthyOptStr resp.task_id then
      { s1 with navigatedTo := some ("/results/" ++ resp.task_id.getD "") }
    else
      { s1 with error := some "Did not receive task ID." }

/-! The `Results` page (`Results.tsx`). -/

/-- `execution_result.visualizations` in the `TaskResult` interface. -/
structure Visualizations where
  umap_plot : Option String
  loss_curve : Option String
deriving DecidableEq, Repr

/-- `execution_result.data_files` in the `TaskResult` interface. -/
structure DataFiles where
  latent_representation : Option String
  processed_data : Option String
deriving DecidableEq, Repr

/-- `metadata.execution_result` in the `TaskResult` interface; `metadata?`
stands for the opaque `metadata: any` field. -/
structure ExecutionResult where
  status : String
  visualizations : Option Visualizations
  data_files : Option DataFiles
deriving DecidableEq, Repr

/-- `metadata` in the `TaskResult` interface.  The `parameters` and
`validation` fields are typed `any` and only echoed back to the screen, so
they are kept as opaque strings. -/
structure TaskMetadata where
  task_id : String
  model_id : String
  filename : String
  file_size : Nat
  parameters : String
  status : String
  validation : String
  execution_result : Option ExecutionResult
deriving DecidableEq, Repr

/-- The JSON body of `GET /tasks/[taskId]` as `Results.fetchResult` reads
it: `task_id`, `found`, and the task payload `metadata`, which may be
absent. -/
structure TaskData where
  task_id : String
  found : Bool
  metadata : Option TaskMetadata
deriving DecidableEq, Repr

/-- Outcome of one poll in `Results.fetchResult`: either the component's
`result` state is set (and the task view rendered), or an error message is
shown. -/
inductive FetchOutcome
  | renderTask (data : TaskData)
  | failure (msg : String)
deriving DecidableEq, Repr

/-- `Results.fetchResult` (lines 49-73): a not-ok response throws
`Could not fetch results.`; an ok response sets the `result` state exactly
when `data.found && data.metadata` is truthy, and otherwise throws
`Results not found.`.  Both throws land in `setError` via the catch
block. -/
def fetchResult (ok : Bool) (data : TaskData) : FetchOutcome :=
  if ok = false then .failure "Could not fetch results."
  else if data.found && data.metadata.isSome then .renderTask data
  else .failure "Results not found."

/-- Guard of the completed-results fragment, `Results.tsx` line 167:
`result?.metadata?.status === 'completed' && result?.metadata?.execution_result`. -/
def showsCompletedResults (m : TaskMetadata) : Bool :=
  m.status == "completed" && m.execution_result.isSome

/-- Guard of the visualizations card, `Results.tsx` line 170 (inside the
completed fragment): `result.metadata.execution_result.visualizations`. -/
def showsVisualizations (m : TaskMetadata) : Bool :=
  showsCompletedResults m &&
    (match m.execution_result with
     | none => false
     | some er => er.visualizations.isSome)

/-- Guard of the downloadable-files card, `Results.tsx` line 253 (inside
the completed fragment): `result.metadata.execution_result.data_files`. -/
def showsDataFiles (m : TaskMetadata) : Bool :=
  showsCompletedResults m &&
    (match m.execution_result with
     | none => false
     | some er => er.data_files.isSome)

/-- Guard of the error-details card, `Results.tsx` line 320:
`result.metadata.status === 'failed'`. -/
def showsFailureDetails (m : TaskMetadata) : Bool :=
  m.status == "failed"

/-! The API helper (`config/api.ts`). -/

/-- The slice of a fetch `Response` that `apiCall` inspects. -/
structure ApiResponse where
  ok : Bool
  status : Nat
  statusText : String
deriving DecidableEq, Repr

/-- `apiCall` (`api.ts` lines 25-46) applied to the outcome of its inner
`fetch` (`.error` standing for a rejected fetch).  A rejected fetch is
logged and re-thrown by the catch block; a response with `ok` false makes
`apiCall` throw `API call failed: [status] [statusText]` (also re-thrown
by the catch block); an ok response is returned unchanged. -/
def apiCall (fetched : Except String ApiResponse) : Except String ApiResponse :=
  match fetched with
  | .error e => .error e
  | .ok r =>
    if r.ok then .ok r
    else .error ("API call failed: " ++ toString r.status ++ " " ++ r.statusText)

/-! The `Models` page (`Models.tsx`). -/

/-- The `Model` interface of `Models.tsx` (lines 4-8): each entry of the
`GET /models` response carries exactly an `id`, a display name `name`, and
an availability flag `status`. -/
structure ModelEntry where
  id : String
  name : String
  status : String
deriving DecidableEq, Repr

/-- The three fields that make up a model entry. -/
def modelEntryFields (m : ModelEntry) : String × String × String :=
  (m.id, m.name, m.status)

/-- `Models.tsx` line 173: the availability text rendered for an entry,
`model.status === 'found' ? 'Available' : 'Unavailable'`. -/
def availabilityLabel (m : ModelEntry) : String :=
  if m.status = "found" then "Available" else "Unavailable"

/-- `Models.fetchModels` line 78: `setModels(data.models || [])`. -/
def modelsFromResponse (models : Option (List ModelEntry)) : List ModelEntry :=
  models.getD []

/-! The parameter validator of the orchestration core.  The backend that
implements it is not part of the checked-in sources, so it is modelled
from the specification (section 4.2). -/

/-- Modelled from the spec: a flat scalar parameter value (section 9 fixes
the grammar to flat scalars; the float case is not exercised by any claim
and is omitted as not shallowly embeddable). -/
inductive PValue
  | vint (n : Int)
  | vstr (s : String)
  | vbool (b : Bool)
deriving DecidableEq, Repr

/-- Modelled from the spec: the declared type of a parameter. -/
inductive PTy
  | tint
  | tstr
  | tbool
deriving DecidableEq, Repr

/-- The declared type of a supplied value. -/
def typeOfValue : PValue → PTy
  | .vint _ => .tint
  | .vstr _ => .tstr
  | .vbool _ => .tbool

/-- Modelled from the spec: one entry of a `parameterSchema` —
`\x7btype, default, min?, max?, required\x7d`. -/
structure ParamSpec where
  ptype : PTy
  pdefault : PValue
  pmin : Option Int
  pmax : Option Int
  required : Bool
deriving DecidableEq, Repr

/-- Modelled from the spec: the classification part of a
`ValidationError`. -/
inductive VReason
  | MissingField
  | TypeMismatch
  | OutOfRange
  | UnknownField
deriving DecidableEq, Repr

/-- Modelled from the spec: `ValidationError\x7bfield, reason\x7d`. -/
structure ValidationError where
  field : String
  reason : VReason
deriving DecidableEq, Repr

/-- First-occurrence lookup in a raw parameter map. -/
def lookupValue : List (String × PValue) → String → Option PValue
  | [], _ => none
  | (k, v) :: rest, n => if k = n then some v else lookupValue rest n

/-- Modelled from the spec: the inclusive `min`/`max` bounds check on a
numeric value (non-numeric values carry no bounds). -/
def withinBounds (sp : ParamSpec) : PValue → Bool
  | .vint n =>
    (match sp.pmin with | none => true | some lo => decide (lo ≤ n)) &&
    (match sp.pmax with | none => true | some hi => decide (n ≤ hi))
  | _ => true

/-- Modelled from the spec: validation of one schema field against the raw
map — absent and required gives `MissingField`, absent and optional
substitutes the default, a value of the wrong declared type gives
`TypeMismatch`, and a numeric value outside the inclusive bounds gives
`OutOfRange`. -/
def validateField (name : String) (sp : ParamSpec)
    (raw : List (String × PValue)) : Except ValidationError PValue :=
  match lookupValue raw name with
  | none =>
    if sp.required then .error ⟨name, .MissingField⟩ else .ok sp.pdefault
  | some v =>
    if typeOfValue v ≠ sp.ptype then .error ⟨name, .TypeMismatch⟩
    else if withinBounds sp v = false then .error ⟨name, .OutOfRange⟩
    else .ok v

/-- Modelled from the spec: the "for every field in `schema`" loop of
`validate`, producing the normalized entries in schema order. -/
def validateFields (raw : List (String × PValue)) :
    List (String × ParamSpec) → Except ValidationError (List (String × PValue))
  | [] => .ok []
  | (n, sp) :: rest =>
    match validateField n sp raw with
    | .error e => .error e
    | .ok v =>
      match validateFields raw rest with
      | .error e => .error e
      | .ok tail => .ok ((n, v) :: tail)

/-- Whether a name is declared in the schema. -/
def declaredIn (schema : List (String × ParamSpec)) (n : String) : Bool :=
  schema.any (fun e => e.1 = n)

/-- Modelled from the spec: the first raw field not present in the schema,
if any (unknown fields fail closed with `UnknownField`). -/
def firstUnknown (schema : List (String × ParamSpec)) :
    List (String × PValue) → Option String
  | [] => none
  | (k, _) :: rest =>
    if declaredIn schema k = false then some k else firstUnknown schema rest

/-- Modelled from the spec:
`validate(schema, rawParams) → NormalizedParams | ValidationError` —
the per-field loop in schema order, then rejection of unknown raw
fields. -/
def validate (schema : List (String × ParamSpec))
    (raw : List (String × PValue)) :
    Except ValidationError (List (String × PValue)) :=
  match validateFields raw schema with
  | .error e => .error e
  | .ok norm =>
    match firstUnknown schema raw with
    | some k => .error ⟨k, .UnknownField⟩
    | none => .ok norm

/-- The scenario schema of spec section 8:
`n_latent` int, default 10, bounds 5..50, optional;
`n_epochs` int, default 400, bounds 100..1000, optional. -/
def schemaScvi : List (String × ParamSpec) :=
  [("n_latent", ⟨.tint, .vint 10, some 5, some 50, false⟩),
   ("n_epochs", ⟨.tint, .vint 400, some 100, some 1000, false⟩)]

/-- Modelled from the spec: a task as the executor creates it at
submission (section 4.4 step 3) — `pending`, holding the plugin id and the
normalized parameter snapshot. -/
structure PendingTask where
  pluginId : String
  params : List (String × PValue)
deriving DecidableEq, Repr

/-- Modelled from the spec: the submission boundary of the executor
(section 4.4 steps 2-3) after the registry lookup has produced the
descriptor's schema — a validation failure is returned to the caller and
no task is created; otherwise a `pending` task joins the store. -/
def submitWithSchema (schema : List (String × ParamSpec))
    (pluginId : String) (raw : List (String × PValue))
    (store : List PendingTask) :
    List PendingTask × Except ValidationError Unit :=
  match validate schema raw with
  | .error e => (store, .error e)
  | .ok norm => (store ++ [⟨pluginId, norm⟩], .ok ())

/-! Helper lemmas. -/

/-- Lowercasing maps no character other than `'.'` to `'.'`. -/
theorem charToLower_eq_dot {c : Char} (h : charToLower c = '.') : c = '.' := by
  unfold charToLower at h
  split at h <;> simp_all

/-- A character list has no last-dot index exactly when it contains no
dot. -/
theorem lastDotIdx_eq_none {l : List Char} : lastDotIdx l = none ↔ '.' ∉ l := by
  induction l with
  | nil => simp [lastDotIdx]
  | cons c cs ih =>
    rw [lastDotIdx]
    cases h : lastDotIdx cs with
    | some i =>
      have hmem : '.' ∈ cs := by
        by_contra hn
        rw [ih.mpr hn] at h
        exact Option.noConfusion h
      simp [hmem]
    | none =>
      have hn : '.' ∉ cs := ih.mp h
      by_cases hc : c = '.'
      · subst hc; simp
      · simp [hc, hn, Ne.symm hc]

/-- A file name without a dot never passes the format check: the computed
extension is the whole lowercased name, which cannot equal `.csv` or
`.h5ad` since those start with a dot. -/
theorem extensionAllowed_of_no_dot {name : List Char} (hdot : '.' ∉ name) :
    extensionAllowed name = false := by
  have hnone : lastDotIdx name = none := lastDotIdx_eq_none.mpr hdot
  unfold extensionAllowed fileExtension allowedTypes
  rw [hnone]
  cases name with
  | nil => decide
  | cons c cs =>
    rw [Bool.eq_false_iff]
    intro hcont
    have hmem : (c :: cs).map charToLower = ".csv".data ∨
        (c :: cs).map charToLower = ".h5ad".data := by
      simpa using hcont
    have hc : charToLower c = '.' := by
      rcases hmem with h | h <;>
        simpa using congrArg (List.headD · ' ') h
    exact hdot (by simp [charToLower_eq_dot hc])

/-- The format check passes exactly when the name has a last dot and the
lowercased tail from that position is one of the two allowed
extensions. -/
theorem extensionAllowed_iff_aux (name : List Char) :
    extensionAllowed name = true ↔
      ∃ i, lastDotIdx name = some i ∧
        ((name.map charToLower).drop i = ".csv".data ∨
         (name.map charToLower).drop i = ".h5ad".data) := by
  cases h : lastDotIdx name with
  | none =>
    have hdot : '.' ∉ name := lastDotIdx_eq_none.mp h
    simp [extensionAllowed_of_no_dot hdot, h]
  | some i =>
    unfold extensionAllowed fileExtension allowedTypes
    rw [h]
    simp [h]

/-- Looking up the written key after a spread update yields the new
value. -/
theorem lookupParam_setParam_self (l : List (String × Int)) (n : String)
    (v : Int) : lookupParam (setParam l n v) n = some v := by
  induction l with
  | nil => simp [setParam, lookupParam]
  | cons p rest ih =>
    by_cases hk : p.1 = n
    · simp [setParam, lookupParam, hk]
    · simp [setParam, lookupParam, hk, ih]

/-- Looking up any other key after a spread update is unchanged. -/
theorem lookupParam_setParam_ne (l : List (String × Int)) (n k : String)
    (v : Int) (hne : k ≠ n) :
    lookupParam (setParam l n v) k = lookupParam l k := by
  induction l with
  | nil => simp [setParam, lookupParam, Ne.symm hne]
  | cons p rest ih =>
    by_cases hk : p.1 = n
    · simp [setParam, lookupParam, hk, Ne.symm hne]
    · simp [setParam, lookupParam, hk, ih]

/-! Claim theorems. -/

/-- Claim C1: with a file selected, an OK response to
`POST /predict/[modelId]` that carries a task id makes `handleSubmit`
navigate to `/results/[taskId]` with no error, and an OK response without
a task id surfaces the `Did not receive task ID.` error and performs no
navigation. -/
theorem upload_submit_navigates_iff_task_id
    (model : String) (resp : PredictResponse) (s : UploadState)
    (hfile : s.selectedFile.isSome = true) (hok : resp.ok = true) :
    (∀ tid : String, resp.task_id = some tid → tid ≠ "" →
      (handleSubmit model resp s).navigatedTo = some ("/results/" ++ tid) ∧
      (handleSubmit model resp s).error = none) ∧
    (jsTruthyOptStr resp.task_id = false →
      (handleSubmit model resp s).error = some "Did not receive task ID." ∧
      (handleSubmit model resp s).navigatedTo = s.navigatedTo) := by
  cases hsf : s.selectedFile with
  | none => rw [hsf] at hfile; simp at hfile
  | some f =>
    constructor
    · intro tid htid hne
      have hbeq : (tid == "") = false := beq_eq_false_iff_ne.mpr hne
      simp [handleSubmit, hsf, hok, jsTruthyOptStr, htid, hbeq]
    · intro hfalse
      simp [handleSubmit, hsf, hok, hfalse]

/-- Witness for C1: a concrete OK response with task id `abc123` makes the
submit handler navigate to `/results/abc123`. -/
theorem upload_submit_navigates_iff_task_id_witness :
    (handleSubmit "scvi_model" ⟨true, some "abc123"⟩
        (handleFileChange (some ⟨"data.h5ad".data, 42⟩)
          initialUploadState)).navigatedTo =
      some ("/results/" ++ "abc123") :=
  ((upload_submit_navigates_iff_task_id "scvi_model" ⟨true, some "abc123"⟩
      (handleFileChange (some ⟨"data.h5ad".data, 42⟩) initialUploadState)
      (by decide) rfl).1 "abc123" rfl (by decide)).1

/-- Claim C2: a poll of `GET /tasks/[taskId]` renders a task view exactly
when the response is OK, `found` is true and the task payload `metadata`
is present; an OK response with `found` false or no payload is treated as
the not-found error. -/
theorem results_poll_renders_iff_found (ok : Bool) (data : TaskData) :
    ((∃ d, fetchResult ok data = .renderTask d) ↔
      ok = true ∧ data.found = true ∧ data.metadata.isSome = true) ∧
    (ok = true → data.found = false ∨ data.metadata = none →
      fetchResult ok data = .failure "Results not found.") := by
  constructor
  · cases ok with
    | false => simp [fetchResult]
    | true =>
      cases hf : data.found with
      | false => simp [fetchResult, hf]
      | true =>
        cases hm : data.metadata with
        | none => simp [fetchResult, hf, hm]
        | some m => simp [fetchResult, hf, hm]
  · rintro hok (hf | hm)
    · simp [fetchResult, hok, hf]
    · simp [fetchResult, hok, hm]

/-- Witness for C2: an OK response with `found` false yields the not-found
error. -/
theorem results_poll_renders_iff_found_witness :
    fetchResult true ⟨"t1", false, none⟩ = .failure "Results not found." :=
  (results_poll_renders_iff_found true ⟨"t1", false, none⟩).2 rfl (Or.inl rfl)

/-- Claim C3: the Results view renders visualizations and output file
references only for a snapshot whose status is `completed`, renders
failure details only for status `failed`, and never renders both for the
same snapshot. -/
theorem results_terminal_rendering_exclusive (m : TaskMetadata) :
    (showsVisualizations m = true → m.status = "completed") ∧
    (showsDataFiles m = true → m.status = "completed") ∧
    (showsFailureDetails m = true → m.status = "failed") ∧
    ¬(showsCompletedResults m = true ∧ showsFailureDetails m = true) := by
  refine ⟨?_, ?_, ?_, ?_⟩
  · intro h
    simp [showsVisualizations, showsCompletedResults] at h
    exact h.1.1
  · intro h
    simp [showsDataFiles, showsCompletedResults] at h
    exact h.1.1
  · intro h
    simpa [showsFailureDetails] using h
  · rintro ⟨h1, h2⟩
    simp [showsCompletedResults] at h1
    simp [showsFailureDetails] at h2
    rw [h1.1] at h2
    exact absurd h2 (by decide)

/-- Witness for C3: a concrete failed snapshot shows failure details and
indeed has status `failed`. -/
theorem results_terminal_rendering_exclusive_witness :
    showsFailureDetails
        (⟨"t", "scvi_model", "f.h5ad", 1, "p", "failed", "v", none⟩ :
          TaskMetadata) = true ∧
    (⟨"t", "scvi_model", "f.h5ad", 1, "p", "failed", "v", none⟩ :
        TaskMetadata).status = "failed" :=
  ⟨by decide, (results_terminal_rendering_exclusive _).2.2.1 (by decide)⟩

/-- Claim C4: a selected file whose extension is not `.csv` or `.h5ad` is
rejected by `handleFileChange` with the unsupported-format error, no file
remains selected, and no request is sent (so no task can be created). -/
theorem upload_rejects_unsupported_format
    (f : FileMeta) (s : UploadState) (h : extensionAllowed f.name = false) :
    (handleFileChange (some f) s).error =
      some "Unsupported file format. Please select a .csv or .h5ad file." ∧
    (handleFileChange (some f) s).selectedFile = none ∧
    (handleFileChange (some f) s).requests = s.requests ∧
    (handleFileChange (some f) s).navigatedTo = s.navigatedTo := by
  simp [handleFileChange, h]

/-- Witness for C4: a concrete `.txt` file fails the check and is
deselected. -/
theorem upload_rejects_unsupported_format_witness :
    extensionAllowed "data.txt".data = false ∧
    (handleFileChange (some ⟨"data.txt".data, 7⟩)
        initialUploadState).selectedFile = none :=
  ⟨by decide,
   (upload_rejects_unsupported_format ⟨"data.txt".data, 7⟩ initialUploadState
      (by decide)).2.1⟩

/-- Claim C5: under the scenario schema, the input supplying only
`n_latent = 15` normalizes to `n_latent = 15` with the omitted `n_epochs`
taking its declared default `400`. -/
theorem validate_omitted_optional_takes_default :
    validate schemaScvi [("n_latent", .vint 15)] =
      .ok [("n_latent", .vint 15), ("n_epochs", .vint 400)] := rfl

/-- Claim C6: any submission whose parameter map carries `n_latent = 999`
is rejected by the validator with `OutOfRange` on field `n_latent`, and
the submission boundary creates no task (the store is unchanged), so the
input never reaches execution. -/
theorem validate_out_of_range_never_executes
    (raw : List (String × PValue)) (pluginId : String)
    (store : List PendingTask)
    (h : lookupValue raw "n_latent" = some (.vint 999)) :
    validate schemaScvi raw = .error ⟨"n_latent", .OutOfRange⟩ ∧
    (submitWithSchema schemaScvi pluginId raw store).1 = store ∧
    (submitWithSchema schemaScvi pluginId raw store).2 =
      .error ⟨"n_latent", .OutOfRange⟩ := by
  have hv : validate schemaScvi raw = .error ⟨"n_latent", .OutOfRange⟩ := by
    simp [validate, validateFields, validateField, schemaScvi, h, typeOfValue,
      withinBounds]
  exact ⟨hv, by simp [submitWithSchema, hv], by simp [submitWithSchema, hv]⟩

/-- Witness for C6: the concrete scenario input is rejected and adds no
task to an empty store. -/
theorem validate_out_of_range_never_executes_witness :
    validate schemaScvi [("n_latent", .vint 999)] =
      .error ⟨"n_latent", .OutOfRange⟩ ∧
    (submitWithSchema schemaScvi "scvi_model" [("n_latent", .vint 999)] []).1 =
      [] :=
  ⟨(validate_out_of_range_never_executes [("n_latent", .vint 999)]
      "scvi_model" [] (by decide)).1,
   (validate_out_of_range_never_executes [("n_latent", .vint 999)]
      "scvi_model" [] (by decide)).2.1⟩

/-- Claim C7: each entry of the `GET /models` listing consists exactly of
the three fields id, display name and availability (the projection to the
triple is a bijection), and the rendered availability is derived from the
`status` field, with `found` meaning available. -/
theorem models_entry_shape :
    Function.Bijective modelEntryFields ∧
    (∀ m : ModelEntry, availabilityLabel m = "Available" ↔
      m.status = "found") := by
  constructor
  · constructor
    · rintro ⟨i1, n1, s1⟩ ⟨i2, n2, s2⟩ h
      simpa [modelEntryFields] using h
    · rintro ⟨i, n, st⟩
      exact ⟨⟨i, n, st⟩, rfl⟩
  · intro m
    by_cases h : m.status = "found"
    · simp [availabilityLabel, h]
    · simp [availabilityLabel, h]

/-- Witness for C7: a concrete triple has a model entry projecting to it,
and a `found` entry is rendered available. -/
theorem models_entry_shape_witness :
    (∃ m : ModelEntry,
      modelEntryFields m = ("scvi_model", "scVI Model", "found")) ∧
    availabilityLabel ⟨"scvi_model", "scVI Model", "found"⟩ = "Available" :=
  ⟨models_entry_shape.1.2 _, (models_entry_shape.2 _).mpr rfl⟩

/-- Claim C8: the client-side format check passes exactly when the
lowercased name's suffix from the last dot is `.csv` or `.h5ad`; it is
case-insensitive (`.H5AD` is accepted) and a name without any dot is
always rejected. -/
theorem upload_format_check_characterization :
    (∀ name : List Char, extensionAllowed name = true ↔
       ∃ i, lastDotIdx name = some i ∧
         ((name.map charToLower).drop i = ".csv".data ∨
          (name.map charToLower).drop i = ".h5ad".data)) ∧
    extensionAllowed "sample.H5AD".data = true ∧
    (∀ name : List Char, '.' ∉ name → extensionAllowed name = false) :=
  ⟨extensionAllowed_iff_aux, by decide, fun _ h => extensionAllowed_of_no_dot h⟩

/-- Witness for C8: the dot-free name `data` is rejected. -/
theorem upload_format_check_characterization_witness :
    ('.' ∉ "data".data) ∧ extensionAllowed "data".data = false :=
  ⟨by decide, upload_format_check_characterization.2.2 "data".data (by decide)⟩

/-- Claim C9: `handleParameterChange(name, value)` updates exactly the
parameter `name` to `value`; every other parameter keeps its previous
value. -/
theorem parameter_change_frame (n : String) (v : Int) (s : UploadState) :
    lookupParam (handleParameterChange n v s).parameters n = some v ∧
    (∀ k, k ≠ n →
      lookupParam (handleParameterChange n v s).parameters k =
        lookupParam s.parameters k) := by
  refine ⟨lookupParam_setParam_self .., fun k hk =>
    lookupParam_setParam_ne _ _ _ _ hk⟩

/-- Witness for C9: setting `n_latent` to 15 in the initial state updates
it and leaves `n_epochs` untouched. -/
theorem parameter_change_frame_witness :
    lookupParam (handleParameterChange "n_latent" 15
        initialUploadState).parameters "n_latent" = some 15 ∧
    lookupParam (handleParameterChange "n_latent" 15
        initialUploadState).parameters "n_epochs" =
      lookupParam initialUploadState.parameters "n_epochs" :=
  ⟨(parameter_change_frame "n_latent" 15 initialUploadState).1,
   (parameter_change_frame "n_latent" 15 initialUploadState).2 "n_epochs"
     (by decide)⟩

/-- Claim C10: `apiCall` resolves with the fetch response exactly when the
response's `ok` flag is true; a not-ok response makes it throw an error
naming the HTTP status, and a rejected fetch is re-thrown unchanged. -/
theorem apiCall_resolves_iff_ok (f : Except String ApiResponse) :
    (∀ r, apiCall f = .ok r ↔ f = .ok r ∧ r.ok = true) ∧
    (∀ r, f = .ok r → r.ok = false →
      apiCall f = .error
        ("API call failed: " ++ toString r.status ++ " " ++ r.statusText)) ∧
    (∀ e, f = .error e → apiCall f = .error e) := by
  refine ⟨?_, ?_, ?_⟩
  · intro r
    cases f with
    | error e => simp [apiCall]
    | ok r0 =>
      cases h : r0.ok with
      | true =>
        constructor
        · intro hr
          simp [apiCall, h] at hr
          subst hr
          exact ⟨rfl, h⟩
        · rintro ⟨hr, _⟩
          cases hr
          simp [apiCall, h]
      | false =>
        constructor
        · intro hr
          simp [apiCall, h] at hr
        · rintro ⟨hr, hok⟩
          cases hr
          rw [h] at hok
          exact absurd hok (by decide)
  · rintro r rfl h
    simp [apiCall, h]
  · rintro e rfl
    simp [apiCall]

/-- Witness for C10: a concrete 404 response makes `apiCall` throw an
error naming the status. -/
theorem apiCall_resolves_iff_ok_witness :
    apiCall (.ok ⟨false, 404, "Not Found"⟩) =
      .error
        ("API call failed: " ++ toString (404 : Nat) ++ " " ++ "Not Found") :=
  (apiCall_resolves_iff_ok _).2.1 ⟨false, 404, "Not Found"⟩ rfl rfl


